import Mathlib

/-!
# Verification of the MQL5-Tools trade-log analyzer core

A shallow embedding of `tools/trade_log_analyzer.py`: the `Trade` record,
the record parser (`Trade.from_row` with its timestamp and numeric
sub-parsers), and the metrics engine (`gross_profit`, `gross_loss`,
`equity_curve`, `max_drawdown`, `summarize_trades`).

Python `float` values are modelled as exact rationals (`ℚ`); the single
non-finite value the analyzer produces (`float("inf")` for the profit
factor) is modelled by a dedicated constructor of `PFVal`.  Python
`datetime` values (the analyzer never uses time zones or microseconds)
are modelled by the six-field `DateTime` record, compared
lexicographically exactly as Python compares naive datetimes.
-/

namespace TradeLog

/-- A naive `datetime.datetime` with microsecond 0: the only datetimes the
analyzer constructs.  Comparison is lexicographic on the six fields, as in
Python. -/
structure DateTime where
  year : ℕ
  month : ℕ
  day : ℕ
  hour : ℕ
  minute : ℕ
  second : ℕ
deriving DecidableEq, Repr

/-- Lexicographic `≤` on the six fields of a `DateTime`: how Python compares
naive `datetime` values. -/
def DateTime.lexLE (a b : DateTime) : Prop :=
  a.year < b.year ∨ (a.year = b.year ∧
    (a.month < b.month ∨ (a.month = b.month ∧
      (a.day < b.day ∨ (a.day = b.day ∧
        (a.hour < b.hour ∨ (a.hour = b.hour ∧
          (a.minute < b.minute ∨ (a.minute = b.minute ∧
            a.second ≤ b.second)))))))))

instance : DecidableRel DateTime.lexLE := fun a b => by
  unfold DateTime.lexLE; infer_instance

/-- Boolean form of the datetime comparison. -/
def DateTime.leb (a b : DateTime) : Bool := decide (DateTime.lexLE a b)

/-- Zero-padding to two digits, as Python's `%02d`. -/
def pad2 (n : ℕ) : String := if n < 10 then "0" ++ toString n else toString n

/-- Zero-padding to four digits, as Python's `%04d`. -/
def pad4 (n : ℕ) : String :=
  if n < 10 then "000" ++ toString n
  else if n < 100 then "00" ++ toString n
  else if n < 1000 then "0" ++ toString n
  else toString n

/-- `datetime.isoformat()` for a microsecond-0 naive datetime:
`YYYY-MM-DDTHH:MM:SS`. -/
def DateTime.isoformat (d : DateTime) : String :=
  pad4 d.year ++ "-" ++ pad2 d.month ++ "-" ++ pad2 d.day ++ "T" ++
    pad2 d.hour ++ ":" ++ pad2 d.minute ++ ":" ++ pad2 d.second

/-- Python's two-argument `max` on floats, written with the executable
comparison `Rat.blt` so that concrete runs reduce. -/
def pymax (a b : ℚ) : ℚ := if Rat.blt a b = true then b else a

/-- Python's `abs` on floats. -/
def pyabs (a : ℚ) : ℚ := if Rat.blt a 0 = true then -a else a

/-- The `Trade` dataclass of `tools/trade_log_analyzer.py`. -/
structure Trade where
  ticket : String
  open_time : DateTime
  type : String
  volume : ℚ
  symbol : String
  open_price : ℚ
  sl : Option ℚ
  tp : Option ℚ
  close_time : DateTime
  close_price : ℚ
  commission : ℚ
  swap : ℚ
  profit : ℚ
deriving DecidableEq, Repr

/-- `Trade.cash_flow`: the full P/L including swap and commission. -/
def Trade.cash_flow (t : Trade) : ℚ := t.profit + t.swap + t.commission

/-- `gross_profit`: sum of cash flow over trades with positive cash flow. -/
def gross_profit (trades : List Trade) : ℚ :=
  ((trades.filter fun t => decide (0 < t.cash_flow)).map Trade.cash_flow).sum

/-- `gross_loss`: sum of `abs(cash_flow)` over trades with negative cash
flow. -/
def gross_loss (trades : List Trade) : ℚ :=
  ((trades.filter fun t => decide (t.cash_flow < 0)).map
    fun t => pyabs t.cash_flow).sum

/-- The sort key relation used by `equity_curve`'s
`sorted(trades, key=lambda t: t.close_time)`. -/
def closeLE (a b : Trade) : Prop := a.close_time.leb b.close_time = true

instance : DecidableRel closeLE := fun a b => by
  unfold closeLE; infer_instance

instance : IsTotal Trade closeLE :=
  ⟨fun a b => by
    unfold closeLE DateTime.leb
    simp only [decide_eq_true_eq]
    unfold DateTime.lexLE
    omega⟩

instance : IsTrans Trade closeLE :=
  ⟨fun a b c h₁ h₂ => by
    unfold closeLE DateTime.leb at h₁ h₂ ⊢
    simp only [decide_eq_true_eq] at h₁ h₂ ⊢
    unfold DateTime.lexLE at h₁ h₂ ⊢
    omega⟩

/-- Strict version of the close-time ordering: it is antisymmetric
everywhere, and sortedness under it follows from `closeLE`-sortedness when
close timestamps are pairwise distinct. -/
def closeLT (a b : Trade) : Prop := a.close_time ≠ b.close_time ∧ closeLE a b

instance : IsAntisymm Trade closeLT :=
  ⟨fun a b h₁ h₂ => by
    refine absurd ?_ h₁.1
    have hle₁ := h₁.2
    have hle₂ := h₂.2
    unfold closeLE DateTime.leb at hle₁ hle₂
    simp only [decide_eq_true_eq] at hle₁ hle₂
    revert hle₁ hle₂
    generalize a.close_time = x
    generalize b.close_time = y
    intro hle₁ hle₂
    cases x
    cases y
    unfold DateTime.lexLE at hle₁ hle₂
    simp only [DateTime.mk.injEq]
    simp only at hle₁ hle₂
    omega⟩

/-- The stable sort by close time performed inside `equity_curve`
(Python's `sorted` is a stable sort; insertion sort is also stable). -/
def sortByClose (trades : List Trade) : List Trade :=
  List.insertionSort closeLE trades

/-- The accumulation loop of `equity_curve`: starting from a running total
`c`, emit one `(close_time, cumulative)` point per trade. -/
def accumulate (c : ℚ) : List Trade → List (DateTime × ℚ)
  | [] => []
  | t :: ts => (t.close_time, c + t.cash_flow) :: accumulate (c + t.cash_flow) ts

/-- `equity_curve`: sort by close time, then accumulate cash flow from 0. -/
def equity_curve (trades : List Trade) : List (DateTime × ℚ) :=
  accumulate 0 (sortByClose trades)

/-- The loop of `max_drawdown`: `peak` starts at `float("-inf")` (modelled
as `none`), and for each point `peak = max(peak, value)` then
`max_dd = max(max_dd, peak - value)`. -/
def mdLoop : Option ℚ → ℚ → List (DateTime × ℚ) → ℚ
  | _, dd, [] => dd
  | peak, dd, (_, v) :: rest =>
    let p := match peak with
      | none => v
      | some p => pymax p v
    mdLoop (some p) (pymax dd (p - v)) rest

/-- `max_drawdown` over an equity curve. -/
def max_drawdown (curve : List (DateTime × ℚ)) : ℚ := mdLoop none 0 curve

/-- Python's `min` over a nonempty sequence: fold keeping the current value
unless the next one is strictly smaller. -/
def foldMin (a : DateTime) (l : List DateTime) : DateTime :=
  l.foldl (fun acc x => if acc.leb x then acc else x) a

/-- Python's `max` over a nonempty sequence: fold keeping the current value
unless the next one is strictly larger. -/
def foldMax (a : DateTime) (l : List DateTime) : DateTime :=
  l.foldl (fun acc x => if x.leb acc then acc else x) a

/-- The profit factor is either a finite rational or `float("inf")`. -/
inductive PFVal where
  | num (q : ℚ)
  | inf
deriving DecidableEq, Repr

/-- The summary dictionary returned by `summarize_trades`. -/
structure Summary where
  total_trades : ℕ
  gross_profit : ℚ
  gross_loss : ℚ
  net_profit : ℚ
  win_rate : ℚ
  profit_factor : PFVal
  average_trade : ℚ
  max_drawdown : ℚ
  start_date : Option String
  end_date : Option String
deriving DecidableEq, Repr

/-- `summarize_trades`.  The empty collection takes the early-return branch;
otherwise every statistic is computed from the trade list.  Python's
`(gp / gl) if gl else float("inf")` tests `gl` for truthiness, i.e.
`gl ≠ 0`. -/
def summarize_trades : List Trade → Summary
  | [] =>
    { total_trades := 0
      gross_profit := 0
      gross_loss := 0
      net_profit := 0
      win_rate := 0
      profit_factor := PFVal.num 0
      average_trade := 0
      max_drawdown := 0
      start_date := none
      end_date := none }
  | t :: ts =>
    let trades := t :: ts
    let gp := gross_profit trades
    let gl := gross_loss trades
    let net := gp - gl
    let wins := (trades.filter fun u => decide (0 < u.cash_flow)).length
    let total := trades.length
    let curve := equity_curve trades
    let start := foldMin t.open_time (ts.map Trade.open_time)
    let last := foldMax t.close_time (ts.map Trade.close_time)
    { total_trades := total
      gross_profit := gp
      gross_loss := gl
      net_profit := net
      win_rate := if total = 0 then 0 else (wins : ℚ) / (total : ℚ)
      profit_factor := if gl = 0 then PFVal.inf else PFVal.num (gp / gl)
      average_trade := if total = 0 then 0 else net / (total : ℚ)
      max_drawdown := max_drawdown curve
      start_date := some start.isoformat
      end_date := some last.isoformat }

/-! ## The record parser: `Trade.from_row` and its sub-parsers -/

/-- Python's `str.strip()` on a list of characters: drop whitespace from
both ends. -/
def pyStrip (cs : List Char) : List Char :=
  ((cs.dropWhile Char.isWhitespace).reverse.dropWhile Char.isWhitespace).reverse

/-- `str.strip()`. -/
def strip (s : String) : String := String.mk (pyStrip s.toList)

/-- The numeric value of a digit string (caller checks the digits). -/
def digitsToNat (cs : List Char) : ℕ :=
  cs.foldl (fun n c => n * 10 + (c.toNat - 48)) 0

/-- All characters are ASCII digits. -/
def allDigits (cs : List Char) : Bool := cs.all fun c => c.isDigit

/-- Gregorian leap year, as implemented by Python's `datetime`. -/
def isLeap (y : ℕ) : Bool :=
  decide (y % 4 = 0) && (decide (y % 100 ≠ 0) || decide (y % 400 = 0))

/-- Days in a month, as validated by the `datetime` constructor. -/
def daysInMonth (y m : ℕ) : ℕ :=
  if m = 2 then (if isLeap y then 29 else 28)
  else if m = 4 ∨ m = 6 ∨ m = 9 ∨ m = 11 then 30
  else 31

/-- The `datetime.datetime` constructor's validation (with microsecond 0 and
no time zone): year in `MINYEAR..MAXYEAR`, month `1..12`, day within the
month, hour `0..23`, minute and second `0..59`. -/
def mkDateTime (y m d h mi s : ℕ) : Option DateTime :=
  if 1 ≤ y ∧ y ≤ 9999 ∧ 1 ≤ m ∧ m ≤ 12 ∧ 1 ≤ d ∧ d ≤ daysInMonth y m ∧
      h ≤ 23 ∧ mi ≤ 59 ∧ s ≤ 59 then
    some ⟨y, m, d, h, mi, s⟩
  else none

/-- One entry of the analyzer's `attempted_formats` tuple: the four formats
differ only in the date separator (`.` or `-`) and in whether a seconds
field is present. -/
structure TSFormat where
  sep : Char
  withSeconds : Bool
deriving DecidableEq, Repr

/-- `attempted_formats` from `Trade.from_row.parse_dt`, in source order:
`%Y.%m.%d %H:%M:%S`, `%Y.%m.%d %H:%M`, `%Y-%m-%d %H:%M:%S`,
`%Y-%m-%d %H:%M`. -/
def attempted_formats : List TSFormat :=
  [⟨'.', true⟩, ⟨'.', false⟩, ⟨'-', true⟩, ⟨'-', false⟩]

/-- `datetime.strptime` restricted to the four formats above, which is all
the analyzer uses.  Mirrors CPython's `_strptime` translation: `%Y` is four
digits, `%m`/`%d`/`%H`/`%M`/`%S` are one or two digits within their ranges,
a literal space matches a whitespace run, and the whole string must match;
the resulting fields then pass through the `datetime` constructor's range
checks. -/
def strptime (f : TSFormat) (cs : List Char) : Option DateTime :=
  match (cs.splitOnP fun c => c.isWhitespace).filter (fun p => !p.isEmpty) with
  | [dpart, tpart] =>
    match dpart.splitOn f.sep with
    | [ys, ms, ds] =>
      if ys.length = 4 ∧ allDigits ys ∧
          1 ≤ ms.length ∧ ms.length ≤ 2 ∧ allDigits ms ∧
          1 ≤ ds.length ∧ ds.length ≤ 2 ∧ allDigits ds then
        let y := digitsToNat ys
        let m := digitsToNat ms
        let d := digitsToNat ds
        if 1 ≤ m ∧ m ≤ 12 ∧ 1 ≤ d ∧ d ≤ 31 then
          match tpart.splitOn ':' with
          | [hs, mins] =>
            if f.withSeconds = false ∧
                1 ≤ hs.length ∧ hs.length ≤ 2 ∧ allDigits hs ∧
                1 ≤ mins.length ∧ mins.length ≤ 2 ∧ allDigits mins ∧
                digitsToNat hs ≤ 23 ∧ digitsToNat mins ≤ 59 then
              mkDateTime y m d (digitsToNat hs) (digitsToNat mins) 0
            else none
          | [hs, mins, ss] =>
            if f.withSeconds = true ∧
                1 ≤ hs.length ∧ hs.length ≤ 2 ∧ allDigits hs ∧
                1 ≤ mins.length ∧ mins.length ≤ 2 ∧ allDigits mins ∧
                1 ≤ ss.length ∧ ss.length ≤ 2 ∧ allDigits ss ∧
                digitsToNat hs ≤ 23 ∧ digitsToNat mins ≤ 59 ∧
                digitsToNat ss ≤ 61 then
              mkDateTime y m d (digitsToNat hs) (digitsToNat mins)
                (digitsToNat ss)
            else none
          | _ => none
        else none
      else none
    | _ => none
  | _ => none

/-- The value of a two-digit field. -/
def twoDigits (a b : Char) : ℕ := (a.toNat - 48) * 10 + (b.toNat - 48)

/-- The time component accepted by `datetime.fromisoformat`:
`HH`, `HH:MM` or `HH:MM:SS` (the analyzer's inputs never carry fractional
seconds or offsets, which this model omits). -/
def isoTime (cs : List Char) : Option (ℕ × ℕ × ℕ) :=
  match cs with
  | [h1, h2] =>
    if allDigits [h1, h2] then some (twoDigits h1 h2, 0, 0) else none
  | [h1, h2, ':', m1, m2] =>
    if allDigits [h1, h2, m1, m2] then
      some (twoDigits h1 h2, twoDigits m1 m2, 0)
    else none
  | [h1, h2, ':', m1, m2, ':', s1, s2] =>
    if allDigits [h1, h2, m1, m2, s1, s2] then
      some (twoDigits h1 h2, twoDigits m1 m2, twoDigits s1 s2)
    else none
  | _ => none

/-- `datetime.fromisoformat` on the extended format
`YYYY-MM-DD[<sep>HH[:MM[:SS]]]` (any single separator character), the
subset relevant to MT4/MT5 exports; field values go through the `datetime`
constructor's range checks. -/
def fromiso (cs : List Char) : Option DateTime :=
  match cs with
  | y1 :: y2 :: y3 :: y4 :: '-' :: m1 :: m2 :: '-' :: d1 :: d2 :: rest =>
    if allDigits [y1, y2, y3, y4, m1, m2, d1, d2] then
      let y := digitsToNat [y1, y2, y3, y4]
      let m := twoDigits m1 m2
      let d := twoDigits d1 d2
      match rest with
      | [] => mkDateTime y m d 0 0 0
      | _ :: timecs =>
        match isoTime timecs with
        | some (h, mi, s) => mkDateTime y m d h mi s
        | none => none
    else none
  | _ => none

/-- The error taxonomy of the record parser (§7 of the design): a required
column absent from the row, an unparseable timestamp, or an unparseable
non-empty numeric field.  (In the Python source these surface as `KeyError`
and `ValueError` at the corresponding call sites.) -/
inductive FromRowError where
  | missingField (column : String)
  | timestampFormat (value : String)
  | numericFormat (value : String)
deriving DecidableEq, Repr

instance {ε α : Type} [DecidableEq ε] [DecidableEq α] :
    DecidableEq (Except ε α) := fun a b =>
  match a, b with
  | Except.ok x, Except.ok y => decidable_of_iff (x = y) (by simp)
  | Except.error x, Except.error y => decidable_of_iff (x = y) (by simp)
  | Except.ok _, Except.error _ => isFalse (by simp)
  | Except.error _, Except.ok _ => isFalse (by simp)

/-- `Trade.from_row.parse_dt`: try the four fixed formats in order on the
stripped value, fall back to ISO-8601 parsing, and fail otherwise. -/
def parse_dt (value : String) : Except FromRowError DateTime :=
  let cs := pyStrip value.toList
  match attempted_formats.findSome? (fun f => strptime f cs) with
  | some d => Except.ok d
  | none =>
    match fromiso cs with
    | some d => Except.ok d
    | none => Except.error (FromRowError.timestampFormat (String.mk cs))

/-- Consume an optional sign, returning whether it was `-`. -/
def parseSign : List Char → Bool × List Char
  | '+' :: t => (false, t)
  | '-' :: t => (true, t)
  | t => (false, t)

/-- Python's `float()` on a finite decimal or scientific literal (the
`inf`/`nan` spellings and digit-group underscores are irrelevant to trade
logs and omitted), as an exact rational. -/
def parseDecimal (cs : List Char) : Option ℚ :=
  let (neg, cs1) := parseSign cs
  let (ip, cs2) := cs1.span Char.isDigit
  let (fp, cs3) :=
    match cs2 with
    | '.' :: t => t.span Char.isDigit
    | _ => ([], cs2)
  if ip.isEmpty && fp.isEmpty then none
  else
    let mant : ℚ :=
      (digitsToNat ip : ℚ) + (digitsToNat fp : ℚ) / (10 : ℚ) ^ fp.length
    match cs3 with
    | [] => some (if neg then -mant else mant)
    | e :: t =>
      if e = 'e' ∨ e = 'E' then
        let (eneg, t1) := parseSign t
        let (ed, t2) := t1.span Char.isDigit
        if ed.isEmpty || !t2.isEmpty then none
        else
          let mag :=
            if eneg then mant / (10 : ℚ) ^ digitsToNat ed
            else mant * (10 : ℚ) ^ digitsToNat ed
          some (if neg then -mag else mag)
      else none

/-- `Trade.from_row.parse_float`: `None` stays `None`, a blank (after
stripping) value becomes `None`, and anything else must be a float
literal. -/
def parse_float (value : Option String) : Except FromRowError (Option ℚ) :=
  match value with
  | none => Except.ok none
  | some v =>
    let text := pyStrip v.toList
    if text.isEmpty then Except.ok none
    else
      match parseDecimal text with
      | some q => Except.ok (some q)
      | none => Except.error (FromRowError.numericFormat (String.mk text))

/-- Python's `x or 0.0` applied to an `Optional[float]`: both `None` and
`0.0` (falsy) coalesce to `0.0`. -/
def orZero : Option ℚ → ℚ
  | none => 0
  | some q => if q = 0 then 0 else q

/-- `row.get(key, dflt)` on a row mapping (a `dict`, modelled as an
association list with distinct keys). -/
def rowGet (row : List (String × String)) (key dflt : String) : String :=
  (row.lookup key).getD dflt

/-- `Trade.from_row`.  The constructor arguments are evaluated left to
right exactly as written in the source, so the first failing parse
determines the error; `row["Open Time"]` and `row["Close Time"]` raise for
an absent column (`missingField`), every other column has a default. -/
def from_row (row : List (String × String)) : Except FromRowError Trade := do
  let ticket := strip (rowGet row "Ticket" "")
  let otime ← match row.lookup "Open Time" with
    | none => Except.error (FromRowError.missingField "Open Time")
    | some v => parse_dt v
  let ty := strip (rowGet row "Type" "")
  let vol ← parse_float (some (rowGet row "Volume" "0"))
  let sym := strip (rowGet row "Symbol" "")
  let oprice ← parse_float (some (rowGet row "Price" "0"))
  let slv ← parse_float (some (rowGet row "SL" ""))
  let tpv ← parse_float (some (rowGet row "TP" ""))
  let ctime ← match row.lookup "Close Time" with
    | none => Except.error (FromRowError.missingField "Close Time")
    | some v => parse_dt v
  let cprice ← parse_float (some (rowGet row "Close Price" "0"))
  let comm ← parse_float (some (rowGet row "Commission" "0"))
  let sw ← parse_float (some (rowGet row "Swap" "0"))
  let pf ← parse_float (some (rowGet row "Profit" "0"))
  pure { ticket := ticket
         open_time := otime
         type := ty
         volume := orZero vol
         symbol := sym
         open_price := orZero oprice
         sl := slv
         tp := tpv
         close_time := ctime
         close_price := orZero cprice
         commission := orZero comm
         swap := orZero sw
         profit := orZero pf }

/-! ## Concrete data for witnesses and counterexamples -/

/-- First fixture trade (cash flow `40 - 0.2 - 0.3 = +39.5`). -/
def fixtureTrade1 : Trade :=
  { ticket := "1", open_time := ⟨2024, 1, 2, 9, 0, 0⟩, type := "buy"
    volume := 1, symbol := "EURUSD", open_price := 1, sl := none, tp := none
    close_time := ⟨2024, 1, 2, 17, 30, 0⟩, close_price := 1
    commission := -3/10, swap := -1/5, profit := 40 }

/-- Second fixture trade (cash flow `22.5 - 0.25 = +22.25`). -/
def fixtureTrade2 : Trade :=
  { ticket := "2", open_time := ⟨2024, 1, 3, 10, 15, 0⟩, type := "sell"
    volume := 1, symbol := "EURUSD", open_price := 1, sl := none, tp := none
    close_time := ⟨2024, 1, 3, 16, 0, 0⟩, close_price := 1
    commission := -1/4, swap := 0, profit := 45/2 }

/-- Third fixture trade (cash flow `-40 - 0.5 - 0.3 = -40.8`). -/
def fixtureTrade3 : Trade :=
  { ticket := "3", open_time := ⟨2024, 1, 4, 11, 20, 0⟩, type := "buy"
    volume := 1, symbol := "GBPUSD", open_price := 1, sl := none, tp := none
    close_time := ⟨2024, 1, 4, 18, 45, 0⟩, close_price := 1
    commission := -3/10, swap := -1/2, profit := -40 }

/-- The three-trade fixture of §8 of the spec: cash flows `+39.5`, `+22.25`,
`-40.8`, timestamps spanning `2024-01-02T09:00:00` to
`2024-01-04T18:45:00`. -/
def fixtureTrades : List Trade := [fixtureTrade1, fixtureTrade2, fixtureTrade3]

/-- A winning trade closing at the same instant as `tieLoss` (cash flow
`+10`). -/
def tieWin : Trade :=
  { ticket := "w", open_time := ⟨2024, 1, 2, 9, 0, 0⟩, type := "buy"
    volume := 1, symbol := "EURUSD", open_price := 1, sl := none, tp := none
    close_time := ⟨2024, 1, 2, 10, 0, 0⟩, close_price := 1
    commission := 0, swap := 0, profit := 10 }

/-- A losing trade closing at the same instant as `tieWin` (cash flow
`-10`). -/
def tieLoss : Trade :=
  { ticket := "l", open_time := ⟨2024, 1, 2, 9, 0, 0⟩, type := "sell"
    volume := 1, symbol := "EURUSD", open_price := 1, sl := none, tp := none
    close_time := ⟨2024, 1, 2, 10, 0, 0⟩, close_price := 1
    commission := 0, swap := 0, profit := -10 }

/-- A single winning trade (cash flow `+7`). -/
def soloWin : Trade :=
  { ticket := "s", open_time := ⟨2024, 1, 2, 9, 0, 0⟩, type := "buy"
    volume := 1, symbol := "EURUSD", open_price := 1, sl := none, tp := none
    close_time := ⟨2024, 1, 2, 10, 0, 0⟩, close_price := 1
    commission := 0, swap := 0, profit := 7 }

/-- A losing trade with cash flow `-5`, closing before `downB`. -/
def downA : Trade :=
  { ticket := "a", open_time := ⟨2024, 1, 2, 9, 0, 0⟩, type := "buy"
    volume := 1, symbol := "EURUSD", open_price := 1, sl := none, tp := none
    close_time := ⟨2024, 1, 2, 10, 0, 0⟩, close_price := 1
    commission := 0, swap := 0, profit := -5 }

/-- A losing trade with cash flow `-4`, closing after `downA`. -/
def downB : Trade :=
  { ticket := "b", open_time := ⟨2024, 1, 3, 9, 0, 0⟩, type := "buy"
    volume := 1, symbol := "EURUSD", open_price := 1, sl := none, tp := none
    close_time := ⟨2024, 1, 3, 10, 0, 0⟩, close_price := 1
    commission := 0, swap := 0, profit := -4 }

/-- A row that is missing `Close Time` and carries a non-numeric `Volume`. -/
def rowMissingClose : List (String × String) :=
  [("Open Time", "2024-01-02 09:00:00"), ("Volume", "x")]

/-- A row with valid required timestamps and all numeric columns set to the
given strings. -/
def rowNum (vol pr sl tp cp comm sw prof : String) : List (String × String) :=
  [("Open Time", "2024-01-02 09:00:00"), ("Close Time", "2024-01-04 18:45:00"),
   ("Volume", vol), ("Price", pr), ("SL", sl), ("TP", tp), ("Close Price", cp),
   ("Commission", comm), ("Swap", sw), ("Profit", prof)]

/-! ## Helper lemmas -/

theorem DateTime.leb_iff (a b : DateTime) :
    a.leb b = true ↔ DateTime.lexLE a b := by
  simp [DateTime.leb]

theorem DateTime.leb_refl (a : DateTime) : a.leb a = true := by
  rw [DateTime.leb_iff]; unfold DateTime.lexLE; omega

theorem DateTime.leb_trans {a b c : DateTime} (h₁ : a.leb b = true)
    (h₂ : b.leb c = true) : a.leb c = true := by
  rw [DateTime.leb_iff] at h₁ h₂ ⊢; unfold DateTime.lexLE at h₁ h₂ ⊢; omega

theorem DateTime.leb_total (a b : DateTime) :
    a.leb b = true ∨ b.leb a = true := by
  rw [DateTime.leb_iff, DateTime.leb_iff]; unfold DateTime.lexLE; omega

theorem DateTime.leb_antisymm {a b : DateTime} (h₁ : a.leb b = true)
    (h₂ : b.leb a = true) : a = b := by
  cases a; cases b
  rw [DateTime.leb_iff] at h₁ h₂
  unfold DateTime.lexLE at h₁ h₂
  simp only [DateTime.mk.injEq]
  simp only at h₁ h₂
  omega

theorem blt_iff_lt (a b : ℚ) : Rat.blt a b = true ↔ a < b := Iff.rfl

theorem pymax_eq_max (a b : ℚ) : pymax a b = max a b := by
  unfold pymax
  by_cases h : a < b
  · rw [if_pos ((blt_iff_lt a b).mpr h), max_eq_right h.le]
  · rw [if_neg fun hb => h ((blt_iff_lt a b).mp hb),
      max_eq_left (not_lt.mp h)]

theorem pyabs_eq_abs (a : ℚ) : pyabs a = |a| := by
  unfold pyabs
  by_cases h : a < 0
  · rw [if_pos ((blt_iff_lt a 0).mpr h), abs_of_neg h]
  · rw [if_neg fun hb => h ((blt_iff_lt a 0).mp hb),
      abs_of_nonneg (not_lt.mp h)]

theorem summarize_trades_cons (t : Trade) (ts : List Trade) :
    summarize_trades (t :: ts) =
      { total_trades := (t :: ts).length
        gross_profit := gross_profit (t :: ts)
        gross_loss := gross_loss (t :: ts)
        net_profit := gross_profit (t :: ts) - gross_loss (t :: ts)
        win_rate :=
          if (t :: ts).length = 0 then 0
          else (((t :: ts).filter fun u => decide (0 < u.cash_flow)).length : ℚ) /
            ((t :: ts).length : ℚ)
        profit_factor :=
          if gross_loss (t :: ts) = 0 then PFVal.inf
          else PFVal.num (gross_profit (t :: ts) / gross_loss (t :: ts))
        average_trade :=
          if (t :: ts).length = 0 then 0
          else (gross_profit (t :: ts) - gross_loss (t :: ts)) / ((t :: ts).length : ℚ)
        max_drawdown := max_drawdown (equity_curve (t :: ts))
        start_date := some (foldMin t.open_time (ts.map Trade.open_time)).isoformat
        end_date := some (foldMax t.close_time (ts.map Trade.close_time)).isoformat } :=
  rfl

theorem mdLoop_ge (curve : List (DateTime × ℚ)) :
    ∀ peak dd, dd ≤ mdLoop peak dd curve := by
  induction curve with
  | nil => intro peak dd; simp [mdLoop]
  | cons hd tl ih =>
    rintro peak dd
    rcases hd with ⟨T, v⟩
    rcases peak with _ | p <;>
    · simp only [mdLoop]
      exact le_trans (by rw [pymax_eq_max]; exact le_max_left _ _) (ih _ _)

theorem mdLoop_sorted (curve : List (DateTime × ℚ)) :
    ∀ p dd, 0 ≤ dd → (∀ v ∈ curve.map Prod.snd, p ≤ v) →
      List.Sorted (· ≤ ·) (curve.map Prod.snd) → mdLoop (some p) dd curve = dd := by
  induction curve with
  | nil => intro p dd _ _ _; simp [mdLoop]
  | cons hd tl ih =>
    rintro p dd hdd hlb hsort
    rcases hd with ⟨T, v⟩
    have hpv : p ≤ v := hlb v (by simp)
    simp only [List.map_cons, List.sorted_cons] at hsort
    simp only [mdLoop]
    rw [show pymax p v = v from by rw [pymax_eq_max]; exact max_eq_right hpv]
    rw [show pymax dd (v - v) = dd from by
      rw [pymax_eq_max, sub_self]; exact max_eq_left hdd]
    exact ih v dd hdd (fun w hw => hsort.1 w hw) hsort.2

theorem max_drawdown_nonneg (curve : List (DateTime × ℚ)) :
    0 ≤ max_drawdown curve := mdLoop_ge curve none 0

theorem max_drawdown_of_sorted (curve : List (DateTime × ℚ))
    (h : List.Sorted (· ≤ ·) (curve.map Prod.snd)) : max_drawdown curve = 0 := by
  rcases curve with _ | ⟨⟨T, v⟩, tl⟩
  · rfl
  · simp only [List.map_cons, List.sorted_cons] at h
    unfold max_drawdown
    simp only [mdLoop]
    rw [show pymax 0 (v - v) = 0 from by rw [pymax_eq_max, sub_self, max_self]]
    exact mdLoop_sorted tl v 0 le_rfl (fun w hw => h.1 w hw) h.2

theorem accumulate_length (l : List Trade) :
    ∀ c, (accumulate c l).length = l.length := by
  induction l with
  | nil => intro c; rfl
  | cons t ts ih => intro c; simp [accumulate, ih]

theorem accumulate_getElem (l : List Trade) :
    ∀ c i, i < l.length →
      (accumulate c l)[i]? =
        (l[i]?).map fun t =>
          (t.close_time, c + ((l.take (i + 1)).map Trade.cash_flow).sum) := by
  induction l with
  | nil => intro c i h; simp at h
  | cons t ts ih =>
    intro c i h
    match i with
    | 0 => simp [accumulate]
    | i + 1 =>
      simp only [accumulate, List.getElem?_cons_succ, List.take_succ_cons,
        List.map_cons, List.sum_cons]
      rw [ih (c + t.cash_flow) i (by simpa using h)]
      rcases hx : ts[i]? with _ | u
      · rfl
      · simp [add_assoc]

theorem accumulate_last_snd (l : List Trade) :
    ∀ c, l ≠ [] →
      ((accumulate c l).map Prod.snd).getLast? =
        some (c + (l.map Trade.cash_flow).sum) := by
  induction l with
  | nil => intro c h; exact absurd rfl h
  | cons t ts ih =>
    intro c _
    rcases ts with _ | ⟨u, us⟩
    · simp [accumulate]
    · have h2 := ih (c + t.cash_flow) (by simp)
      calc ((accumulate c (t :: u :: us)).map Prod.snd).getLast?
          = ((accumulate (c + t.cash_flow) (u :: us)).map Prod.snd).getLast? := by
            rw [show accumulate c (t :: u :: us) =
              (t.close_time, c + t.cash_flow) ::
                accumulate (c + t.cash_flow) (u :: us) from rfl]
            rw [List.map_cons]
            rw [show (accumulate (c + t.cash_flow) (u :: us)).map Prod.snd =
              (c + t.cash_flow + u.cash_flow) ::
                (accumulate (c + t.cash_flow + u.cash_flow) us).map Prod.snd from rfl]
            exact List.getLast?_cons_cons
        _ = some (c + t.cash_flow + (List.map Trade.cash_flow (u :: us)).sum) := h2
        _ = some (c + (List.map Trade.cash_flow (t :: u :: us)).sum) := by
            simp only [List.map_cons, List.sum_cons]
            congr 1
            ring

theorem foldMin_spec (l : List DateTime) :
    ∀ a, foldMin a l ∈ a :: l ∧ ∀ x ∈ a :: l, (foldMin a l).leb x = true := by
  induction l with
  | nil =>
    intro a
    refine ⟨by simp [foldMin], ?_⟩
    intro x hx
    rcases List.mem_singleton.mp hx with rfl
    exact DateTime.leb_refl _
  | cons b t ih =>
    intro a
    have hstep : foldMin a (b :: t) = foldMin (if a.leb b then a else b) t := rfl
    obtain ⟨hmem, hlb⟩ := ih (if a.leb b then a else b)
    constructor
    · rw [hstep]
      rcases List.mem_cons.mp hmem with h | h
      · rw [h]
        split
        · exact List.mem_cons_self _ _
        · exact List.mem_cons_of_mem _ (List.mem_cons_self _ _)
      · exact List.mem_cons_of_mem _ (List.mem_cons_of_mem _ h)
    · intro x hx
      rw [hstep]
      have hsa : (if a.leb b then a else b).leb a = true := by
        by_cases h : a.leb b = true
        · rw [if_pos h]; exact DateTime.leb_refl a
        · rw [if_neg h]
          rcases DateTime.leb_total a b with h' | h'
          · exact absurd h' h
          · exact h'
      have hsb : (if a.leb b then a else b).leb b = true := by
        by_cases h : a.leb b = true
        · rw [if_pos h]; exact h
        · rw [if_neg h]; exact DateTime.leb_refl b
      have hhead : (foldMin (if a.leb b then a else b) t).leb
          (if a.leb b then a else b) = true :=
        hlb _ (List.mem_cons_self _ _)
      rcases List.mem_cons.mp hx with rfl | hx'
      · exact DateTime.leb_trans hhead hsa
      · rcases List.mem_cons.mp hx' with rfl | hx''
        · exact DateTime.leb_trans hhead hsb
        · exact hlb _ (List.mem_cons_of_mem _ hx'')

theorem foldMax_spec (l : List DateTime) :
    ∀ a, foldMax a l ∈ a :: l ∧ ∀ x ∈ a :: l, x.leb (foldMax a l) = true := by
  induction l with
  | nil =>
    intro a
    refine ⟨by simp [foldMax], ?_⟩
    intro x hx
    rcases List.mem_singleton.mp hx with rfl
    exact DateTime.leb_refl _
  | cons b t ih =>
    intro a
    have hstep : foldMax a (b :: t) = foldMax (if b.leb a then a else b) t := rfl
    obtain ⟨hmem, hub⟩ := ih (if b.leb a then a else b)
    constructor
    · rw [hstep]
      rcases List.mem_cons.mp hmem with h | h
      · rw [h]
        split
        · exact List.mem_cons_self _ _
        · exact List.mem_cons_of_mem _ (List.mem_cons_self _ _)
      · exact List.mem_cons_of_mem _ (List.mem_cons_of_mem _ h)
    · intro x hx
      rw [hstep]
      have hsa : a.leb (if b.leb a then a else b) = true := by
        by_cases h : b.leb a = true
        · rw [if_pos h]; exact DateTime.leb_refl a
        · rw [if_neg h]
          rcases DateTime.leb_total b a with h' | h'
          · exact absurd h' h
          · exact h'
      have hsb : b.leb (if b.leb a then a else b) = true := by
        by_cases h : b.leb a = true
        · rw [if_pos h]; exact h
        · rw [if_neg h]; exact DateTime.leb_refl b
      have hhead : (if b.leb a then a else b).leb
          (foldMax (if b.leb a then a else b) t) = true :=
        hub _ (List.mem_cons_self _ _)
      rcases List.mem_cons.mp hx with rfl | hx'
      · exact DateTime.leb_trans hsa hhead
      · rcases List.mem_cons.mp hx' with rfl | hx''
        · exact DateTime.leb_trans hsb hhead
        · exact hub _ (List.mem_cons_of_mem _ hx'')

theorem foldMin_perm {a₁ a₂ : DateTime} {l₁ l₂ : List DateTime}
    (h : (a₁ :: l₁).Perm (a₂ :: l₂)) : foldMin a₁ l₁ = foldMin a₂ l₂ := by
  obtain ⟨hmem₁, hlb₁⟩ := foldMin_spec l₁ a₁
  obtain ⟨hmem₂, hlb₂⟩ := foldMin_spec l₂ a₂
  exact DateTime.leb_antisymm
    (hlb₁ _ (h.symm.subset hmem₂)) (hlb₂ _ (h.subset hmem₁))

theorem foldMax_perm {a₁ a₂ : DateTime} {l₁ l₂ : List DateTime}
    (h : (a₁ :: l₁).Perm (a₂ :: l₂)) : foldMax a₁ l₁ = foldMax a₂ l₂ := by
  obtain ⟨hmem₁, hub₁⟩ := foldMax_spec l₁ a₁
  obtain ⟨hmem₂, hub₂⟩ := foldMax_spec l₂ a₂
  exact DateTime.leb_antisymm
    (hub₂ _ (h.subset hmem₁)) (hub₁ _ (h.symm.subset hmem₂))

theorem gross_profit_sub_gross_loss (l : List Trade) :
    gross_profit l - gross_loss l = (l.map Trade.cash_flow).sum := by
  induction l with
  | nil => simp [gross_profit, gross_loss]
  | cons t ts ih =>
    simp only [gross_profit, gross_loss, List.filter_cons, pyabs_eq_abs] at ih ⊢
    rcases lt_trichotomy t.cash_flow 0 with h | h | h
    · rw [if_neg (by simp; linarith), if_pos (by simp [h])]
      simp only [List.map_cons, List.sum_cons, pyabs_eq_abs, abs_of_neg h]
      linarith
    · rw [if_neg (by simp [h]), if_neg (by simp [h])]
      simp only [List.map_cons, List.sum_cons, h]
      linarith
    · rw [if_pos (by simp [h]), if_neg (by simp; linarith)]
      simp only [List.map_cons, List.sum_cons]
      linarith

theorem gross_profit_perm {l₁ l₂ : List Trade} (h : l₁.Perm l₂) :
    gross_profit l₁ = gross_profit l₂ :=
  ((h.filter _).map _).sum_eq

theorem gross_loss_perm {l₁ l₂ : List Trade} (h : l₁.Perm l₂) :
    gross_loss l₁ = gross_loss l₂ :=
  ((h.filter _).map _).sum_eq

theorem sortByClose_perm (l : List Trade) : (sortByClose l).Perm l :=
  List.perm_insertionSort closeLE l

theorem sortByClose_sorted (l : List Trade) :
    List.Sorted closeLE (sortByClose l) :=
  List.sorted_insertionSort closeLE l

theorem filter_orderedInsert_close (T : DateTime) (a : Trade) (l : List Trade) :
    (List.orderedInsert closeLE a l).filter (fun t => decide (t.close_time = T)) =
      if a.close_time = T
      then a :: l.filter (fun t => decide (t.close_time = T))
      else l.filter (fun t => decide (t.close_time = T)) := by
  induction l with
  | nil =>
    by_cases h : a.close_time = T <;> simp [List.orderedInsert, h]
  | cons b bl ih =>
    by_cases hab : closeLE a b
    · rw [show List.orderedInsert closeLE a (b :: bl) = a :: b :: bl from by
        simp [List.orderedInsert, hab]]
      by_cases ha : a.close_time = T <;> simp [List.filter_cons, ha]
    · rw [show List.orderedInsert closeLE a (b :: bl) =
        b :: List.orderedInsert closeLE a bl from by
          simp [List.orderedInsert, hab]]
      by_cases ha : a.close_time = T
      · have hb : ¬ b.close_time = T := by
          intro hbT
          exact hab (show closeLE a b from by
            unfold closeLE; rw [ha, hbT]; exact DateTime.leb_refl T)
        simp [List.filter_cons, ha, hb, ih]
      · by_cases hb : b.close_time = T <;> simp [List.filter_cons, ha, hb, ih]

/-- Stability of the sort inside `equity_curve`: for any close timestamp,
the trades carrying it appear in the sorted list exactly as they appeared
in the input. -/
theorem sortByClose_filter_close (l : List Trade) (T : DateTime) :
    (sortByClose l).filter (fun t => decide (t.close_time = T)) =
      l.filter (fun t => decide (t.close_time = T)) := by
  induction l with
  | nil => rfl
  | cons t ts ih =>
    unfold sortByClose at ih ⊢
    rw [show List.insertionSort closeLE (t :: ts) =
      List.orderedInsert closeLE t (List.insertionSort closeLE ts) from rfl]
    by_cases h : t.close_time = T <;>
      simp [filter_orderedInsert_close, ih, List.filter_cons, h]

theorem sorted_closeLT_of_nodup {s : List Trade}
    (hs : List.Sorted closeLE s)
    (hnd : (s.map fun t => t.close_time).Nodup) : List.Sorted closeLT s := by
  have hne : s.Pairwise fun a b => a.close_time ≠ b.close_time :=
    List.pairwise_map.mp hnd
  exact (hne.and hs).imp fun hab => hab

/-- With pairwise-distinct close timestamps the sorted order is unique, so
any permutation of the input sorts to the same list. -/
theorem sortByClose_eq_of_perm {l₁ l₂ : List Trade} (h : l₁.Perm l₂)
    (hnd : (l₁.map fun t => t.close_time).Nodup) :
    sortByClose l₁ = sortByClose l₂ := by
  have hperm : (sortByClose l₁).Perm (sortByClose l₂) :=
    (sortByClose_perm l₁).trans (h.trans (sortByClose_perm l₂).symm)
  have hnd₁ : ((sortByClose l₁).map fun t => t.close_time).Nodup :=
    (((sortByClose_perm l₁).map _).nodup_iff).mpr hnd
  have hnd₂ : ((sortByClose l₂).map fun t => t.close_time).Nodup :=
    (((sortByClose_perm l₂).map _).nodup_iff).mpr ((h.map _).nodup_iff.mp hnd)
  exact List.eq_of_perm_of_sorted hperm
    (sorted_closeLT_of_nodup (sortByClose_sorted l₁) hnd₁)
    (sorted_closeLT_of_nodup (sortByClose_sorted l₂) hnd₂)

theorem equity_curve_eq_of_perm {l₁ l₂ : List Trade} (h : l₁.Perm l₂)
    (hnd : (l₁.map fun t => t.close_time).Nodup) :
    equity_curve l₁ = equity_curve l₂ := by
  unfold equity_curve
  rw [sortByClose_eq_of_perm h hnd]

/-! ## The claims -/

/-- C7: Summarizing the empty trade sequence returns `total_trades = 0`,
all-zero numeric statistics, `profit_factor = 0.0`, and absent start and
end dates, and does not fail. -/
theorem claim_C7 :
    summarize_trades [] =
      { total_trades := 0, gross_profit := 0, gross_loss := 0, net_profit := 0
        win_rate := 0, profit_factor := PFVal.num 0, average_trade := 0
        max_drawdown := 0, start_date := none, end_date := none } := rfl

/-- C2: For every non-empty trade sequence with gross loss exactly 0
(including gross profit 0), `summarize_trades` reports profit factor
`+infinity`; for the empty sequence it reports `0.0`; the two cases are
never conflated. -/
theorem claim_C2 :
    (∀ l : List Trade, l ≠ [] → gross_loss l = 0 →
      (summarize_trades l).profit_factor = PFVal.inf) ∧
    (summarize_trades []).profit_factor = PFVal.num 0 ∧
    PFVal.inf ≠ PFVal.num 0 := by
  refine ⟨?_, rfl, by simp⟩
  intro l hne hgl
  rcases l with _ | ⟨t, ts⟩
  · exact absurd rfl hne
  · rw [summarize_trades_cons]
    simp [hgl]

/-- Witness for C2: a one-trade collection with no losses reports
profit factor `+infinity`. -/
theorem claim_C2_witness :
    ([soloWin] : List Trade) ≠ [] ∧ gross_loss [soloWin] = 0 ∧
      (summarize_trades [soloWin]).profit_factor = PFVal.inf := by
  have h1 : ([soloWin] : List Trade) ≠ [] := by simp
  have h2 : gross_loss [soloWin] = 0 := by with_unfolding_all rfl
  exact ⟨h1, h2, claim_C2.1 [soloWin] h1 h2⟩

/-- C3 counterexample: the per-trade cash flows `-5, -4` are non-decreasing
in close-time order, yet the reported max drawdown is `4`, not `0` — read
literally over per-trade cash flow, the claim's second half is false. -/
theorem claim_C3_counterexample :
    downA.close_time.leb downB.close_time = true ∧
    downA.cash_flow ≤ downB.cash_flow ∧
    (summarize_trades [downA, downB]).max_drawdown = 4 ∧
    (summarize_trades [downA, downB]).max_drawdown ≠ 0 := by
  refine ⟨by decide, by with_unfolding_all decide, by with_unfolding_all rfl,
    by with_unfolding_all decide⟩

/-- C3 (amended): the reported max drawdown is always `≥ 0`, and it equals
`0` whenever the *cumulative* cash flow is non-decreasing in close-time
order (i.e. along the equity curve). -/
theorem claim_C3 : ∀ l : List Trade,
    0 ≤ (summarize_trades l).max_drawdown ∧
    (List.Sorted (· ≤ ·) ((equity_curve l).map Prod.snd) →
      (summarize_trades l).max_drawdown = 0) := by
  intro l
  rcases l with _ | ⟨t, ts⟩
  · exact ⟨le_rfl, fun _ => rfl⟩
  · rw [summarize_trades_cons]
    exact ⟨max_drawdown_nonneg _, fun h => max_drawdown_of_sorted _ h⟩

/-- Witness for C3: a single profitable trade has a non-decreasing equity
curve and zero drawdown. -/
theorem claim_C3_witness :
    List.Sorted (· ≤ ·) ((equity_curve [soloWin]).map Prod.snd) ∧
    (summarize_trades [soloWin]).max_drawdown = 0 := by
  have h : List.Sorted (· ≤ ·) ((equity_curve [soloWin]).map Prod.snd) := by
    with_unfolding_all decide
  exact ⟨h, (claim_C3 [soloWin]).2 h⟩

/-- C10: the equity curve has one point per trade, and for a non-empty
sequence the cumulative value of its last point is the total cash flow,
which in exact arithmetic equals gross profit minus gross loss (the net
profit). -/
theorem claim_C10 : ∀ l : List Trade,
    (equity_curve l).length = l.length ∧
    (l ≠ [] →
      ((equity_curve l).map Prod.snd).getLast? =
        some ((l.map Trade.cash_flow).sum) ∧
      (l.map Trade.cash_flow).sum = gross_profit l - gross_loss l) := by
  intro l
  constructor
  · unfold equity_curve
    rw [accumulate_length, (sortByClose_perm l).length_eq]
  · intro hne
    constructor
    · unfold equity_curve
      have hs : sortByClose l ≠ [] := by
        intro h0
        have hp := sortByClose_perm l
        rw [h0] at hp
        exact hne hp.nil_eq.symm
      rw [accumulate_last_snd _ 0 hs, zero_add]
      exact congrArg some ((sortByClose_perm l).map _).sum_eq
    · exact (gross_profit_sub_gross_loss l).symm

/-- Witness for C10: on the three-trade fixture the last curve point
carries the total cash flow. -/
theorem claim_C10_witness :
    fixtureTrades ≠ [] ∧
    ((equity_curve fixtureTrades).map Prod.snd).getLast? =
      some ((fixtureTrades.map Trade.cash_flow).sum) := by
  have h : fixtureTrades ≠ [] := by simp [fixtureTrades]
  exact ⟨h, ((claim_C10 fixtureTrades).2 h).1⟩

/-- C1 counterexample: two trades closing at the same instant with cash
flows `+10` and `-10`.  Swapping them is a permutation of the input, yet
the reported max drawdown changes from `10` to `0`, so the claim that *no*
Summary field changes under permutation is false. -/
theorem claim_C1_counterexample :
    ([tieWin, tieLoss] : List Trade).Perm [tieLoss, tieWin] ∧
    (summarize_trades [tieWin, tieLoss]).max_drawdown = 10 ∧
    (summarize_trades [tieLoss, tieWin]).max_drawdown = 0 ∧
    (summarize_trades [tieWin, tieLoss]).max_drawdown ≠
      (summarize_trades [tieLoss, tieWin]).max_drawdown := by
  refine ⟨List.Perm.swap tieLoss tieWin [], by with_unfolding_all rfl,
    by with_unfolding_all rfl, by with_unfolding_all decide⟩

/-- C1 (amended): permuting the input changes no Summary field other than
`max_drawdown` — and when the close timestamps are pairwise distinct (so
that the stable sort has no ties to break by input order) the whole
Summary, `max_drawdown` included, is unchanged. -/
theorem claim_C1 : ∀ l₁ l₂ : List Trade, l₁.Perm l₂ →
    ((summarize_trades l₁).total_trades = (summarize_trades l₂).total_trades ∧
     (summarize_trades l₁).gross_profit = (summarize_trades l₂).gross_profit ∧
     (summarize_trades l₁).gross_loss = (summarize_trades l₂).gross_loss ∧
     (summarize_trades l₁).net_profit = (summarize_trades l₂).net_profit ∧
     (summarize_trades l₁).win_rate = (summarize_trades l₂).win_rate ∧
     (summarize_trades l₁).profit_factor = (summarize_trades l₂).profit_factor ∧
     (summarize_trades l₁).average_trade = (summarize_trades l₂).average_trade ∧
     (summarize_trades l₁).start_date = (summarize_trades l₂).start_date ∧
     (summarize_trades l₁).end_date = (summarize_trades l₂).end_date) ∧
    ((l₁.map fun t => t.close_time).Nodup →
      summarize_trades l₁ = summarize_trades l₂) := by
  intro l₁ l₂ h
  rcases l₁ with _ | ⟨t, ts⟩
  · rw [h.nil_eq.symm]
    exact ⟨⟨rfl, rfl, rfl, rfl, rfl, rfl, rfl, rfl, rfl⟩, fun _ => rfl⟩
  · rcases l₂ with _ | ⟨u, us⟩
    · have := h.length_eq
      simp at this
    · have htot : (t :: ts).length = (u :: us).length := h.length_eq
      have hgp : gross_profit (t :: ts) = gross_profit (u :: us) :=
        gross_profit_perm h
      have hgl : gross_loss (t :: ts) = gross_loss (u :: us) :=
        gross_loss_perm h
      have hwins :
          ((t :: ts).filter fun x => decide (0 < x.cash_flow)).length =
            ((u :: us).filter fun x => decide (0 < x.cash_flow)).length :=
        (h.filter _).length_eq
      have hmin : foldMin t.open_time (ts.map Trade.open_time) =
          foldMin u.open_time (us.map Trade.open_time) :=
        foldMin_perm (by simpa using h.map Trade.open_time)
      have hmax : foldMax t.close_time (ts.map Trade.close_time) =
          foldMax u.close_time (us.map Trade.close_time) :=
        foldMax_perm (by simpa using h.map Trade.close_time)
      constructor
      · simp only [summarize_trades_cons]
        refine ⟨by simp [htot], by simp [hgp], by simp [hgl],
          by simp [hgp, hgl], by simp [htot, hwins], by simp [hgp, hgl],
          by simp [hgp, hgl, htot], by simp [hmin], by simp [hmax]⟩
      · intro hnd
        have hcurve : equity_curve (t :: ts) = equity_curve (u :: us) :=
          equity_curve_eq_of_perm h hnd
        simp only [summarize_trades_cons, Summary.mk.injEq]
        refine ⟨by simp [htot], by simp [hgp], by simp [hgl],
          by simp [hgp, hgl], by simp [htot, hwins], by simp [hgp, hgl],
          by simp [hgp, hgl, htot], by simp [hcurve], by simp [hmin],
          by simp [hmax]⟩

/-- Witness for C1: reordering the three-trade fixture (whose close
timestamps are pairwise distinct) leaves the entire Summary unchanged. -/
theorem claim_C1_witness :
    fixtureTrades.Perm [fixtureTrade2, fixtureTrade1, fixtureTrade3] ∧
    (fixtureTrades.map fun t => t.close_time).Nodup ∧
    summarize_trades fixtureTrades =
      summarize_trades [fixtureTrade2, fixtureTrade1, fixtureTrade3] := by
  have hp : fixtureTrades.Perm [fixtureTrade2, fixtureTrade1, fixtureTrade3] :=
    List.Perm.swap fixtureTrade2 fixtureTrade1 [fixtureTrade3]
  have hnd : (fixtureTrades.map fun t => t.close_time).Nodup := by
    decide
  exact ⟨hp, hnd, (claim_C1 _ _ hp).2 hnd⟩

/-- C8: the equity curve is built over a stable sort of the trades by close
timestamp (a permutation, sorted, with trades of equal close timestamp kept
in input order), with one point per trade carrying the running cumulative
cash flow in that order. -/
theorem claim_C8 : ∀ l : List Trade,
    (sortByClose l).Perm l ∧
    List.Sorted closeLE (sortByClose l) ∧
    (∀ T, (sortByClose l).filter (fun t => decide (t.close_time = T)) =
      l.filter (fun t => decide (t.close_time = T))) ∧
    (equity_curve l).length = l.length ∧
    (∀ i, i < l.length →
      (equity_curve l)[i]? = ((sortByClose l)[i]?).map fun t =>
        (t.close_time,
          (((sortByClose l).take (i + 1)).map Trade.cash_flow).sum)) := by
  intro l
  refine ⟨sortByClose_perm l, sortByClose_sorted l,
    sortByClose_filter_close l, ?_, ?_⟩
  · unfold equity_curve
    rw [accumulate_length, (sortByClose_perm l).length_eq]
  · intro i hi
    have hi' : i < (sortByClose l).length := by
      rw [(sortByClose_perm l).length_eq]
      exact hi
    unfold equity_curve
    rw [accumulate_getElem _ 0 i hi']
    simp [zero_add]

/-- Witness for C8: the second point of the fixture's equity curve is the
second sorted trade's close time with the two-trade running total. -/
theorem claim_C8_witness :
    1 < fixtureTrades.length ∧
    (equity_curve fixtureTrades)[1]? =
      ((sortByClose fixtureTrades)[1]?).map fun t =>
        (t.close_time,
          (((sortByClose fixtureTrades).take 2).map Trade.cash_flow).sum) := by
  have h : 1 < fixtureTrades.length := by simp [fixtureTrades]
  exact ⟨h, (claim_C8 fixtureTrades).2.2.2.2 1 h⟩

/-- C9: on the three-trade fixture (cash flows `+39.5`, `+22.25`, `-40.8`,
timestamps spanning `2024-01-02T09:00:00` to `2024-01-04T18:45:00`) the
summary reports `total_trades = 3`, `gross_profit = 61.75`,
`gross_loss = 40.8`, `net_profit = 20.95`, `win_rate = 2/3 ≈ 0.6667`,
`profit_factor = 1235/816 ≈ 1.5135`, `max_drawdown = 40.8`, and the two
ISO date strings.  (Python floats are modelled as exact rationals; the two
`≈` values of the claim are pinned down to within `0.0001`.) -/
theorem claim_C9 :
    fixtureTrade1.cash_flow = 39.5 ∧
    fixtureTrade2.cash_flow = 22.25 ∧
    fixtureTrade3.cash_flow = -40.8 ∧
    (summarize_trades fixtureTrades).total_trades = 3 ∧
    (summarize_trades fixtureTrades).gross_profit = 61.75 ∧
    (summarize_trades fixtureTrades).gross_loss = 40.8 ∧
    (summarize_trades fixtureTrades).net_profit = 20.95 ∧
    (summarize_trades fixtureTrades).win_rate = 2/3 ∧
    (summarize_trades fixtureTrades).profit_factor = PFVal.num (1235/816) ∧
    (summarize_trades fixtureTrades).max_drawdown = 40.8 ∧
    (summarize_trades fixtureTrades).start_date = some "2024-01-02T09:00:00" ∧
    (summarize_trades fixtureTrades).end_date = some "2024-01-04T18:45:00" ∧
    ((2 : ℚ)/3 - 0.6667 < 0.0001 ∧ (0.6667 : ℚ) - 2/3 < 0.0001) ∧
    ((1235 : ℚ)/816 - 1.5135 < 0.0001 ∧ (1.5135 : ℚ) - 1235/816 < 0.0001) := by
  set_option maxRecDepth 4000 in with_unfolding_all decide

/-- C4 counterexample: a row missing `Close Time` whose `Volume` field is
non-numeric fails with the numeric error, not the missing-field error —
`Volume` is parsed before `Close Time` is looked up, so the claim that a
row missing a required column always fails with `MissingFieldError` is
false. -/
theorem claim_C4_counterexample :
    rowMissingClose.lookup "Close Time" = none ∧
    from_row rowMissingClose =
      Except.error (FromRowError.numericFormat "x") ∧
    from_row rowMissingClose ≠
      Except.error (FromRowError.missingField "Close Time") ∧
    from_row rowMissingClose ≠
      Except.error (FromRowError.missingField "Open Time") := by
  refine ⟨rfl, by with_unfolding_all rfl, by with_unfolding_all decide,
    by with_unfolding_all decide⟩

/-- C4 (amended): a row missing `Open Time` always fails with
`MissingFieldError("Open Time")`; a row missing `Close Time` fails with
`MissingFieldError("Close Time")` provided the fields parsed before it
(open time, volume, price, SL, TP) are valid; and a row carrying only the
two required columns yields a Trade built entirely from the documented
defaults. -/
theorem claim_C4 :
    (∀ row : List (String × String), row.lookup "Open Time" = none →
      from_row row = Except.error (FromRowError.missingField "Open Time")) ∧
    (∀ (row : List (String × String)) (otv : String) (d : DateTime)
        (vq pq sq tq : Option ℚ),
      row.lookup "Close Time" = none →
      row.lookup "Open Time" = some otv →
      parse_dt otv = Except.ok d →
      parse_float (some (rowGet row "Volume" "0")) = Except.ok vq →
      parse_float (some (rowGet row "Price" "0")) = Except.ok pq →
      parse_float (some (rowGet row "SL" "")) = Except.ok sq →
      parse_float (some (rowGet row "TP" "")) = Except.ok tq →
      from_row row = Except.error (FromRowError.missingField "Close Time")) ∧
    (∀ (otv ctv : String) (d₁ d₂ : DateTime),
      parse_dt otv = Except.ok d₁ →
      parse_dt ctv = Except.ok d₂ →
      from_row [("Open Time", otv), ("Close Time", ctv)] =
        Except.ok
          { ticket := "", open_time := d₁, type := "", volume := 0
            symbol := "", open_price := 0, sl := none, tp := none
            close_time := d₂, close_price := 0, commission := 0
            swap := 0, profit := 0 }) := by
  refine ⟨?_, ?_, ?_⟩
  · intro row h
    unfold from_row
    rw [h]
    rfl
  · intro row otv d vq pq sq tq hclose hopen hdt hvol hpr hsl htp
    unfold from_row
    rw [hopen, hclose]
    simp only [hdt, hvol, hpr, hsl, htp]
    rfl
  · intro otv ctv d₁ d₂ h₁ h₂
    unfold from_row
    have lot : ([("Open Time", otv), ("Close Time", ctv)]).lookup "Open Time" =
        some otv := rfl
    have lct : ([("Open Time", otv), ("Close Time", ctv)]).lookup "Close Time" =
        some ctv := rfl
    rw [lot, lct]
    simp only [h₁, h₂]
    with_unfolding_all rfl

/-- Witness for C4: the empty row fails with the `Open Time` missing-field
error. -/
theorem claim_C4_witness :
    (([] : List (String × String)).lookup "Open Time" = none) ∧
    from_row [] = Except.error (FromRowError.missingField "Open Time") := by
  have h : (([] : List (String × String)).lookup "Open Time" = none) := rfl
  exact ⟨h, claim_C4.1 [] h⟩

/-- C5: timestamp parsing tries `%Y.%m.%d %H:%M:%S`, `%Y.%m.%d %H:%M`,
`%Y-%m-%d %H:%M:%S`, `%Y-%m-%d %H:%M` in exactly that order on the trimmed
input, returns the first full-string match, falls back to ISO-8601 parsing
when none match, and fails with `TimestampFormatError` when the fallback
also fails; `"2024.01.02 09:00:00"` and `"2024-01-02 09:00:00"` parse to
the identical instant. -/
theorem claim_C5 :
    (∀ (value : String) (d : DateTime),
      (strptime ⟨'.', true⟩ (pyStrip value.toList) = some d →
        parse_dt value = Except.ok d) ∧
      (strptime ⟨'.', true⟩ (pyStrip value.toList) = none →
        strptime ⟨'.', false⟩ (pyStrip value.toList) = some d →
        parse_dt value = Except.ok d) ∧
      (strptime ⟨'.', true⟩ (pyStrip value.toList) = none →
        strptime ⟨'.', false⟩ (pyStrip value.toList) = none →
        strptime ⟨'-', true⟩ (pyStrip value.toList) = some d →
        parse_dt value = Except.ok d) ∧
      (strptime ⟨'.', true⟩ (pyStrip value.toList) = none →
        strptime ⟨'.', false⟩ (pyStrip value.toList) = none →
        strptime ⟨'-', true⟩ (pyStrip value.toList) = none →
        strptime ⟨'-', false⟩ (pyStrip value.toList) = some d →
        parse_dt value = Except.ok d) ∧
      ((∀ f ∈ attempted_formats, strptime f (pyStrip value.toList) = none) →
        fromiso (pyStrip value.toList) = some d →
        parse_dt value = Except.ok d)) ∧
    (∀ value : String,
      (∀ f ∈ attempted_formats, strptime f (pyStrip value.toList) = none) →
      fromiso (pyStrip value.toList) = none →
      parse_dt value = Except.error
        (FromRowError.timestampFormat (String.mk (pyStrip value.toList)))) ∧
    (parse_dt "2024.01.02 09:00:00" = Except.ok ⟨2024, 1, 2, 9, 0, 0⟩ ∧
      parse_dt "2024-01-02 09:00:00" = Except.ok ⟨2024, 1, 2, 9, 0, 0⟩) := by
  refine ⟨?_, ?_, rfl, rfl⟩
  · intro value d
    refine ⟨?_, ?_, ?_, ?_, ?_⟩
    · intro h1
      simp only [String.toList] at h1
      unfold parse_dt attempted_formats
      simp [List.findSome?_cons, h1]
    · intro h1 h2
      simp only [String.toList] at h1 h2
      unfold parse_dt attempted_formats
      simp [List.findSome?_cons, h1, h2]
    · intro h1 h2 h3
      simp only [String.toList] at h1 h2 h3
      unfold parse_dt attempted_formats
      simp [List.findSome?_cons, h1, h2, h3]
    · intro h1 h2 h3 h4
      simp only [String.toList] at h1 h2 h3 h4
      unfold parse_dt attempted_formats
      simp [List.findSome?_cons, h1, h2, h3, h4]
    · intro hall hiso
      unfold parse_dt
      have h1 := hall ⟨'.', true⟩ (by simp [attempted_formats])
      have h2 := hall ⟨'.', false⟩ (by simp [attempted_formats])
      have h3 := hall ⟨'-', true⟩ (by simp [attempted_formats])
      have h4 := hall ⟨'-', false⟩ (by simp [attempted_formats])
      simp only [String.toList] at h1 h2 h3 h4 hiso
      unfold attempted_formats
      simp [List.findSome?_cons, h1, h2, h3, h4, hiso]
  · intro value hall hiso
    unfold parse_dt
    have h1 := hall ⟨'.', true⟩ (by simp [attempted_formats])
    have h2 := hall ⟨'.', false⟩ (by simp [attempted_formats])
    have h3 := hall ⟨'-', true⟩ (by simp [attempted_formats])
    have h4 := hall ⟨'-', false⟩ (by simp [attempted_formats])
    simp only [String.toList] at h1 h2 h3 h4 hiso
    unfold attempted_formats
    simp [List.findSome?_cons, h1, h2, h3, h4, hiso]

/-- Witness for C5: `"2024-01-02T09:00:00"` matches none of the four
`strptime` formats and is parsed by the ISO-8601 fallback. -/
theorem claim_C5_witness :
    (∀ f ∈ attempted_formats,
      strptime f (pyStrip ("2024-01-02T09:00:00" : String).toList) = none) ∧
    fromiso (pyStrip ("2024-01-02T09:00:00" : String).toList) =
      some ⟨2024, 1, 2, 9, 0, 0⟩ ∧
    parse_dt "2024-01-02T09:00:00" = Except.ok ⟨2024, 1, 2, 9, 0, 0⟩ := by
  have hall : ∀ f ∈ attempted_formats,
      strptime f (pyStrip ("2024-01-02T09:00:00" : String).toList) = none := by
    decide
  have hiso : fromiso (pyStrip ("2024-01-02T09:00:00" : String).toList) =
      some ⟨2024, 1, 2, 9, 0, 0⟩ := rfl
  exact ⟨hall, hiso,
    (claim_C5.1 "2024-01-02T09:00:00" ⟨2024, 1, 2, 9, 0, 0⟩).2.2.2.2 hall hiso⟩

/-- C6: numeric parsing trims whitespace; a blank value parses to `None`,
which the optional fields `SL`/`TP` keep (`sl = none`, `tp = none`) while
the defaulted fields (volume, prices, commission, swap, profit) coalesce to
`0.0` — two distinguishable outcomes — and a non-empty non-numeric value
fails with `NumericFormatError`. -/
theorem claim_C6 :
    (∀ s : String, pyStrip s.toList = [] →
      parse_float (some s) = Except.ok none) ∧
    (∀ s : String, pyStrip s.toList ≠ [] →
      parseDecimal (pyStrip s.toList) = none →
      parse_float (some s) = Except.error
        (FromRowError.numericFormat (String.mk (pyStrip s.toList)))) ∧
    (∀ vol pr sl tp cp comm sw prof : String,
      pyStrip vol.toList = [] → pyStrip pr.toList = [] →
      pyStrip sl.toList = [] → pyStrip tp.toList = [] →
      pyStrip cp.toList = [] → pyStrip comm.toList = [] →
      pyStrip sw.toList = [] → pyStrip prof.toList = [] →
      from_row (rowNum vol pr sl tp cp comm sw prof) =
        Except.ok
          { ticket := "", open_time := ⟨2024, 1, 2, 9, 0, 0⟩, type := ""
            volume := 0, symbol := "", open_price := 0, sl := none, tp := none
            close_time := ⟨2024, 1, 4, 18, 45, 0⟩, close_price := 0
            commission := 0, swap := 0, profit := 0 }) ∧
    ((none : Option ℚ) ≠ some 0) := by
  have hb : ∀ s : String, pyStrip s.data = [] →
      parse_float (some s) = Except.ok none := by
    intro s h
    unfold parse_float
    simp [h]
  refine ⟨?_, ?_, ?_, by simp⟩
  · intro s h
    simp only [String.toList] at h
    exact hb s h
  · intro s h1 h2
    simp only [String.toList] at h1 h2 ⊢
    unfold parse_float
    rcases hl : pyStrip s.data with _ | ⟨c, cs⟩
    · exact absurd hl h1
    · rw [hl] at h2
      simp [hl, h2]
  · intro vol pr sl tp cp comm sw prof h1 h2 h3 h4 h5 h6 h7 h8
    simp only [String.toList] at h1 h2 h3 h4 h5 h6 h7 h8
    have l02 : (rowNum vol pr sl tp cp comm sw prof).lookup "Open Time" =
        some "2024-01-02 09:00:00" := rfl
    have l09 : (rowNum vol pr sl tp cp comm sw prof).lookup "Close Time" =
        some "2024-01-04 18:45:00" := rfl
    have l01 : (rowNum vol pr sl tp cp comm sw prof).lookup "Ticket" =
        none := rfl
    have l03 : (rowNum vol pr sl tp cp comm sw prof).lookup "Type" =
        none := rfl
    have l04 : (rowNum vol pr sl tp cp comm sw prof).lookup "Volume" =
        some vol := rfl
    have l05 : (rowNum vol pr sl tp cp comm sw prof).lookup "Symbol" =
        none := rfl
    have l06 : (rowNum vol pr sl tp cp comm sw prof).lookup "Price" =
        some pr := rfl
    have l07 : (rowNum vol pr sl tp cp comm sw prof).lookup "SL" =
        some sl := rfl
    have l08 : (rowNum vol pr sl tp cp comm sw prof).lookup "TP" =
        some tp := rfl
    have l10 : (rowNum vol pr sl tp cp comm sw prof).lookup "Close Price" =
        some cp := rfl
    have l11 : (rowNum vol pr sl tp cp comm sw prof).lookup "Commission" =
        some comm := rfl
    have l12 : (rowNum vol pr sl tp cp comm sw prof).lookup "Swap" =
        some sw := rfl
    have l13 : (rowNum vol pr sl tp cp comm sw prof).lookup "Profit" =
        some prof := rfl
    have pd1 : parse_dt "2024-01-02 09:00:00" =
        Except.ok ⟨2024, 1, 2, 9, 0, 0⟩ := rfl
    have pd2 : parse_dt "2024-01-04 18:45:00" =
        Except.ok ⟨2024, 1, 4, 18, 45, 0⟩ := rfl
    unfold from_row rowGet
    rw [l02, l09]
    simp only [l01, l03, l04, l05, l06, l07, l08, l10, l11, l12, l13,
      Option.getD_none, Option.getD_some]
    simp only [pd1, pd2, hb vol h1, hb pr h2, hb sl h3, hb tp h4, hb cp h5,
      hb comm h6, hb sw h7, hb prof h8]
    rfl

/-- Witness for C6: a whitespace-only value parses to `None`; `"abc"` fails
with `NumericFormatError("abc")`; an all-blank numeric row yields the
default Trade with `sl = none` but `commission = 0`. -/
theorem claim_C6_witness :
    (pyStrip (" " : String).toList = [] ∧
      parse_float (some " ") = Except.ok none) ∧
    (pyStrip ("abc" : String).toList ≠ [] ∧
      parseDecimal (pyStrip ("abc" : String).toList) = none ∧
      parse_float (some "abc") = Except.error
        (FromRowError.numericFormat (String.mk (pyStrip ("abc" : String).toList)))) ∧
    from_row (rowNum "" "" "" "" "" "" "" "") =
      Except.ok
        { ticket := "", open_time := ⟨2024, 1, 2, 9, 0, 0⟩, type := ""
          volume := 0, symbol := "", open_price := 0, sl := none, tp := none
          close_time := ⟨2024, 1, 4, 18, 45, 0⟩, close_price := 0
          commission := 0, swap := 0, profit := 0 } := by
  have hws : pyStrip (" " : String).toList = [] := rfl
  have habc1 : pyStrip ("abc" : String).toList ≠ [] := by decide
  have habc2 : parseDecimal (pyStrip ("abc" : String).toList) = none := rfl
  have hblank : pyStrip ("" : String).toList = [] := rfl
  exact ⟨⟨hws, claim_C6.1 " " hws⟩,
    ⟨habc1, habc2, claim_C6.2.1 "abc" habc1 habc2⟩,
    claim_C6.2.2.1 "" "" "" "" "" "" "" "" hblank hblank hblank hblank hblank
      hblank hblank hblank⟩

end TradeLog
